import Mathlib

/-!
# Rjoystick: the Ruby binding for the Linux kernel joystick (`rjoystick.c`)

A shallow embedding of `rjoystick.c`.  The C functions become Lean functions on
an explicit `World`:

* the static table `jse[MAX_JS]` is a list of byte records,
* the `int` cells obtained from `malloc` are a list, each cell holding its
  integer or being freed, and a pointer is `none` (NULL) or the index of a cell,
* the Ruby objects made by `Data_Wrap_Struct` are a list of class and pointer,
* the system calls issued so far are a trace.

What the kernel answers to a system call is an argument of the function that
issues it.  `rb_raise` is the outcome `raise`; undefined behaviour of C (a
dangling dereference, an index outside `jse`, a `sprintf` past its buffer) is
the outcome `undefined`.

Platform: `int` has 32 bits, `long` has 64 bits (so `INT2FIX` keeps every
`int` and every `unsigned int`), the byte order is little-endian and `>>` on a
signed `int` is the arithmetic shift.  `malloc` hands out a new cell each time.
The collector reclaiming a `Device` object is a step of its own: it runs
`jsdevice_free`, the `dfree` function `js_dev_init` registers.  `Event` objects
are registered with no `dmark` and no `dfree`, so reclaiming one runs nothing.
`jsdevice_mark` passes `*fd` to `rb_gc_mark` of the Ruby runtime and writes
nothing of the binding.
-/

namespace Rjoystick

/-! ## Constants -/

/-- The macro `MAX_JS`: size of the event table. -/
def MAX_JS : Nat := 32

/-- The macro `NAME_LENGTH`. -/
def NAME_LENGTH : Nat := 128

/-- The constant `JS_EVENT_BUTTON` of `<linux/joystick.h>`. -/
def JS_EVENT_BUTTON : Int := 0x01

/-- The constant `JS_EVENT_AXIS` of `<linux/joystick.h>`. -/
def JS_EVENT_AXIS : Int := 0x02

/-- The constant `JS_EVENT_INIT` of `<linux/joystick.h>`. -/
def JS_EVENT_INIT : Int := 0x80

/-- The value of `sizeof(struct js_event)`: a `__u32`, a `__s16` and two `__u8`. -/
def JS_EVENT_SIZE : Nat := 8

/-! ## Data model -/

/-- One byte of memory. -/
abbrev Byte := Fin 256

/-- The decoded view of `struct js_event` of `<linux/joystick.h>`:
`__u32 time; __s16 value; __u8 type; __u8 number;`. -/
structure js_event where
  time : Nat
  value : Int
  type : Nat
  number : Nat
  deriving DecidableEq, Repr

/-- The byte of a record at an offset (0 when the record is shorter). -/
def byteAt (s : List Byte) (i : Nat) : Nat := ((s.get? i).getD 0).val

/-- The field `time`: the `__u32` at offset 0, little-endian. -/
def slotTime (s : List Byte) : Nat :=
  byteAt s 0 + 256 * byteAt s 1 + 65536 * byteAt s 2 + 16777216 * byteAt s 3

/-- The field `value`: the `__s16` at offset 4, little-endian, two's complement. -/
def slotValue (s : List Byte) : Int :=
  let u := byteAt s 4 + 256 * byteAt s 5
  if u < 32768 then (u : Int) else (u : Int) - 65536

/-- The field `type`: the `__u8` at offset 6. -/
def slotType (s : List Byte) : Nat := byteAt s 6

/-- The field `number`: the `__u8` at offset 7. -/
def slotNumber (s : List Byte) : Nat := byteAt s 7

/-- The record a slot of `jse` holds. -/
def decode (s : List Byte) : js_event :=
  { time := slotTime s, value := slotValue s, type := slotType s, number := slotNumber s }

/-- A byte from a natural number, reduced modulo 256. -/
def toByte (n : Nat) : Byte := ⟨n % 256, Nat.mod_lt _ (by decide)⟩

/-- The eight bytes the kernel copies out for a record: the memory image of
`struct js_event`. -/
def encode (e : js_event) : List Byte :=
  [toByte e.time, toByte (e.time / 256), toByte (e.time / 65536), toByte (e.time / 16777216),
   toByte (e.value % 65536).toNat, toByte ((e.value % 65536).toNat / 256),
   toByte e.type, toByte e.number]

/-- A record whose fields fit their C types. -/
def js_event.WF (e : js_event) : Prop :=
  e.time < 4294967296 ∧ -32768 ≤ e.value ∧ e.value < 32768 ∧ e.type < 256 ∧ e.number < 256

instance (e : js_event) : Decidable e.WF := by
  unfold js_event.WF
  infer_instance

/-- A C pointer to an `int`: NULL or the index of a cell of the heap. -/
abbrev Ptr := Option Nat

/-- The two Ruby classes of the binding. -/
inductive Klass
  | Device
  | Event
  deriving DecidableEq, Repr

/-- The Ruby values the binding returns. -/
inductive VALUE
  | Qnil
  | fixnum (i : Int)
  | str (s : String)
  | data (klass : Klass) (ptr : Ptr)
  deriving DecidableEq, Repr

/-- The macro `INT2FIX`: the Ruby integer of a C integer. -/
def INT2FIX (i : Int) : VALUE := VALUE.fixnum i

/-- The requests of `<linux/joystick.h>` the binding issues. -/
inductive Request
  | JSIOCGAXES
  | JSIOCGBUTTONS
  | JSIOCGNAME
  | JSIOCGAXMAP
  | JSIOCGVERSION
  deriving DecidableEq, Repr

/-- A system call as issued by the binding. -/
inductive Syscall
  | sys_open (path : String)
  | sys_ioctl (fd : Int) (req : Request)
  | sys_read (fd : Int) (count : Nat)
  | sys_close (fd : Int)
  deriving DecidableEq, Repr

/-- How a function of the binding ends. -/
inductive Outcome
  | ret (v : VALUE)
  | raise (msg : String)
  | undefined
  deriving DecidableEq, Repr

/-- The state the binding works on. -/
structure World where
  jse : List (List Byte)
  heap : List (Option Int)
  objects : List (Klass × Ptr)
  trace : List Syscall
  deriving DecidableEq, Repr

/-- The state at load time: `jse` is a zero-initialised static array. -/
def World.boot : World :=
  { jse := List.replicate MAX_JS (List.replicate JS_EVENT_SIZE 0),
    heap := [], objects := [], trace := [] }

/-- The dereference `*fd`: nothing for NULL, for an address `malloc` never
returned and for a freed cell. -/
def World.load (w : World) (fd : Ptr) : Option Int :=
  match fd with
  | none => none
  | some a =>
    match w.heap.get? a with
    | some (some d) => some d
    | _ => none

/-- The macro `Data_Wrap_Struct`: a new Ruby object around a pointer. -/
def Data_Wrap_Struct (w : World) (klass : Klass) (fd : Ptr) : VALUE × World :=
  (VALUE.data klass fd, { w with objects := w.objects ++ [(klass, fd)] })

/-- The state after a system call was issued. -/
def World.issue (w : World) (c : Syscall) : World :=
  { w with trace := w.trace ++ [c] }

/-! ## What the kernel answers -/

/-- The answer to `read`: an error (the call returns -1 and copies nothing) or
the bytes copied into the buffer (the call returns their number). -/
inductive ReadResult
  | error (errno : Nat)
  | bytes (data : List Byte)
  deriving DecidableEq, Repr

/-- The bytes `read` copies into a buffer of `count` bytes. -/
def ReadResult.delivered (r : ReadResult) (count : Nat) : List Byte :=
  match r with
  | ReadResult.error _ => []
  | ReadResult.bytes d => d.take count

/-- The value `read` returns. -/
def ReadResult.ret (r : ReadResult) (count : Nat) : Int :=
  match r with
  | ReadResult.error _ => -1
  | ReadResult.bytes d => ((d.take count).length : Int)

/-- A buffer after its first bytes were overwritten. -/
def overwrite (buf : List Byte) (d : List Byte) : List Byte :=
  d ++ buf.drop d.length

/-! ## The device functions -/

/-- The function `js_dev_init` (`Device.new`): `mallocOk` says whether `malloc`
returned a cell, `openRet` is what `open` returns. -/
def js_dev_init (w : World) (dev_path : String) (mallocOk : Bool) (openRet : Int) :
    Outcome × World :=
  if mallocOk then
    let fd : Ptr := some w.heap.length
    let w1 := ({ w with heap := w.heap ++ [some openRet] }).issue (Syscall.sys_open dev_path)
    if openRet ≥ 0 then
      if openRet ≥ (MAX_JS : Int) then
        (Outcome.raise "Error", w1)
      else
        let r := Data_Wrap_Struct w1 Klass.Device fd
        (Outcome.ret r.1, r.2)
    else
      (Outcome.ret VALUE.Qnil, w1)
  else
    (Outcome.ret VALUE.Qnil, w)

/-- The function `js_dev_axes`: `r` is what `ioctl` returns, `axes` the byte in
the local variable after the call. -/
def js_dev_axes (w : World) (self : Ptr) (r : Int) (axes : Byte) : Outcome × World :=
  match w.load self with
  | none => (Outcome.undefined, w)
  | some fd =>
    let w1 := w.issue (Syscall.sys_ioctl fd Request.JSIOCGAXES)
    if r = -1 then (Outcome.raise "cannot retrive axes", w1)
    else (Outcome.ret (INT2FIX axes.val), w1)

/-- The function `js_dev_buttons`: `r` is what `ioctl` returns, `buttons` the
byte in the local variable after the call. -/
def js_dev_buttons (w : World) (self : Ptr) (r : Int) (buttons : Byte) : Outcome × World :=
  match w.load self with
  | none => (Outcome.undefined, w)
  | some fd =>
    let w1 := w.issue (Syscall.sys_ioctl fd Request.JSIOCGBUTTONS)
    if r = -1 then (Outcome.raise "cannot retrieve buttons", w1)
    else (Outcome.ret (INT2FIX buttons.val), w1)

/-- The C string a text holds: its characters before the first NUL. -/
def cString (s : String) : String :=
  String.mk (s.toList.takeWhile (fun c => !(c == Char.ofNat 0)))

/-- The function `js_dev_name`: `r` is what `ioctl` returns, `written` the name
the driver holds, if the driver stores one.  The buffer `name[NAME_LENGTH]`
starts as `"Unknow"` followed by NULs; the driver copies the bytes of its name
and the NUL as far as `NAME_LENGTH` bytes go.  `rb_str_new2` runs `strlen` on
the buffer: after a name of `NAME_LENGTH` bytes or more the buffer holds no NUL
and `strlen` reads past it. -/
def js_dev_name (w : World) (self : Ptr) (r : Int) (written : Option String) :
    Outcome × World :=
  match w.load self with
  | none => (Outcome.undefined, w)
  | some fd =>
    let w1 := w.issue (Syscall.sys_ioctl fd Request.JSIOCGNAME)
    if r = -1 then (Outcome.raise "cannot retrieve name", w1)
    else
      match written with
      | none => (Outcome.ret (VALUE.str "Unknow"), w1)
      | some n =>
        if (cString n).utf8ByteSize + 1 ≤ NAME_LENGTH then
          (Outcome.ret (VALUE.str (cString n)), w1)
        else (Outcome.undefined, w1)

/-- The function `js_dev_axes_maps`: `r` is what `ioctl` returns; the value
returned is `INT2FIX` of the address `axes_maps` of the local array. -/
def js_dev_axes_maps (w : World) (self : Ptr) (r : Int) (axes_maps : Int) :
    Outcome × World :=
  match w.load self with
  | none => (Outcome.undefined, w)
  | some fd =>
    let w1 := w.issue (Syscall.sys_ioctl fd Request.JSIOCGAXMAP)
    if r = -1 then (Outcome.raise "cannot retrive axes", w1)
    else (Outcome.ret (INT2FIX axes_maps), w1)

/-- The conversion `%d` of `sprintf`. -/
def fmtD (i : Int) : String := toString i

/-- The three arguments of the `sprintf` in `js_dev_version`:
`version >> 16`, `(version >> 8) & 0xff`, `version & 0xff`. -/
def versionArgs (version : Int) : Int × Int × Int :=
  (version >>> (16 : Nat), Int.land (version >>> (8 : Nat)) 0xff, Int.land version 0xff)

/-- The text `sprintf(js_version, "%d.%d.%d\n", ...)` produces. -/
def versionText (version : Int) : String :=
  let a := versionArgs version
  fmtD a.1 ++ "." ++ fmtD a.2.1 ++ "." ++ fmtD a.2.2 ++ "\n"

/-- The function `js_dev_version`: `r` is what `ioctl` returns, `written` the
integer the driver stored, if it stored one; `version` starts as `0x000800`.
The text and its terminating NUL must fit `char js_version[16]`. -/
def js_dev_version (w : World) (self : Ptr) (r : Int) (written : Option Int) :
    Outcome × World :=
  match w.load self with
  | none => (Outcome.undefined, w)
  | some fd =>
    let version := written.getD 0x000800
    let w1 := w.issue (Syscall.sys_ioctl fd Request.JSIOCGVERSION)
    if r = -1 then (Outcome.raise "version error", w1)
    else
      let js_version := versionText version
      if js_version.length + 1 ≤ 16 then (Outcome.ret (VALUE.str js_version), w1)
      else (Outcome.undefined, w1)

/-- The function `js_dev_event_get` (`Device#event`): `rd` is what `read`
answers.  The buffer of the `read` is the slot `jse[*fd]`. -/
def js_dev_event_get (w : World) (self : Ptr) (rd : ReadResult) : Outcome × World :=
  match w.load self with
  | none => (Outcome.undefined, w)
  | some fd =>
    if fd < 0 then (Outcome.undefined, w)
    else
      match w.jse.get? fd.toNat with
      | none => (Outcome.undefined, w)
      | some slot =>
        let buf := overwrite slot (rd.delivered JS_EVENT_SIZE)
        let w1 := ({ w with jse := w.jse.set fd.toNat buf }).issue
          (Syscall.sys_read fd JS_EVENT_SIZE)
        if rd.ret JS_EVENT_SIZE > 0 then
          let r := Data_Wrap_Struct w1 Klass.Event self
          (Outcome.ret r.1, r.2)
        else
          (Outcome.ret VALUE.Qnil, w1)

/-- The function `js_dev_close`: the value `close` returns is not looked at. -/
def js_dev_close (w : World) (self : Ptr) : Outcome × World :=
  match w.load self with
  | none => (Outcome.undefined, w)
  | some fd => (Outcome.ret VALUE.Qnil, w.issue (Syscall.sys_close fd))

/-! ## The collector -/

/-- The function `jsdevice_free`: `free(fd)`.  The cell is freed; `free(NULL)`
does nothing. -/
def jsdevice_free (w : World) (fd : Ptr) : World :=
  match fd with
  | none => w
  | some a => { w with heap := w.heap.set a none }

/-- The collector reclaims a `Device` object no variable refers to any more: it
runs `jsdevice_free` on the pointer the object wraps, and the object is gone.
A cell is wrapped by one `Device` object only. -/
def collectDevice (w : World) (self : Ptr) : World :=
  let w1 := jsdevice_free w self
  { w1 with objects := w1.objects.filter (fun o => !(o == (Klass.Device, self))) }

/-! ## The event accessors -/

/-- What `(fd && *fd >= 0) ? jse[*fd] : -1` selects. -/
inductive Lookup
  | sentinel
  | slot (s : List Byte)
  | undefined
  deriving DecidableEq, Repr

/-- The selection `(fd && *fd >= 0) ? jse[*fd] : ...` of the four accessors. -/
def lookup (w : World) (fd : Ptr) : Lookup :=
  match fd with
  | none => Lookup.sentinel
  | some a =>
    match w.load (some a) with
    | none => Lookup.undefined
    | some d =>
      if d ≥ 0 then
        match w.jse.get? d.toNat with
        | none => Lookup.undefined
        | some s => Lookup.slot s
      else Lookup.sentinel

/-- The function `js_event_number`. -/
def js_event_number (w : World) (self : Ptr) : Outcome :=
  match lookup w self with
  | Lookup.slot s => Outcome.ret (INT2FIX (slotNumber s))
  | Lookup.sentinel => Outcome.ret (INT2FIX (-1))
  | Lookup.undefined => Outcome.undefined

/-- The function `js_event_type`. -/
def js_event_type (w : World) (self : Ptr) : Outcome :=
  match lookup w self with
  | Lookup.slot s => Outcome.ret (INT2FIX (slotType s))
  | Lookup.sentinel => Outcome.ret (INT2FIX (-1))
  | Lookup.undefined => Outcome.undefined

/-- The function `js_event_time`: the field is an `unsigned int`, so the `-1`
of the other branch is converted to `4294967295`. -/
def js_event_time (w : World) (self : Ptr) : Outcome :=
  match lookup w self with
  | Lookup.slot s => Outcome.ret (INT2FIX (slotTime s))
  | Lookup.sentinel => Outcome.ret (INT2FIX 4294967295)
  | Lookup.undefined => Outcome.undefined

/-- The function `js_event_value`. -/
def js_event_value (w : World) (self : Ptr) : Outcome :=
  match lookup w self with
  | Lookup.slot s => Outcome.ret (INT2FIX (slotValue s))
  | Lookup.sentinel => Outcome.ret (INT2FIX (-1))
  | Lookup.undefined => Outcome.undefined

/-! ## Programs over the binding -/

/-- A step of a Ruby program: a call on the binding, with what the kernel
answers, or the collector reclaiming a device the program dropped. -/
inductive Call
  | init (dev_path : String) (mallocOk : Bool) (openRet : Int)
  | axes (self : Ptr) (r : Int) (axes : Byte)
  | buttons (self : Ptr) (r : Int) (buttons : Byte)
  | name (self : Ptr) (r : Int) (written : Option String)
  | axes_maps (self : Ptr) (r : Int) (axes_maps : Int)
  | version (self : Ptr) (r : Int) (written : Option Int)
  | event (self : Ptr) (rd : ReadResult)
  | close (self : Ptr)
  | time (self : Ptr)
  | value (self : Ptr)
  | number (self : Ptr)
  | type (self : Ptr)
  | collect (self : Ptr)

/-- The method table of `Init_rjoystick`: the C function behind each call; the
collector returns nothing to the program. -/
def Call.run (c : Call) (w : World) : Outcome × World :=
  match c with
  | Call.init dev_path mallocOk openRet => js_dev_init w dev_path mallocOk openRet
  | Call.axes self r x => js_dev_axes w self r x
  | Call.buttons self r x => js_dev_buttons w self r x
  | Call.name self r written => js_dev_name w self r written
  | Call.axes_maps self r x => js_dev_axes_maps w self r x
  | Call.version self r written => js_dev_version w self r written
  | Call.event self rd => js_dev_event_get w self rd
  | Call.close self => js_dev_close w self
  | Call.time self => (js_event_time w self, w)
  | Call.value self => (js_event_value w self, w)
  | Call.number self => (js_event_number w self, w)
  | Call.type self => (js_event_type w self, w)
  | Call.collect self => (Outcome.ret VALUE.Qnil, collectDevice w self)

/-- A step that can happen: the receiver of a `Device` method is an object
made for `Device`, the receiver of an `Event` method an object made for
`Event`, the integer the version query stores is a 32-bit `int`, and the
collector reclaims an object made for `Device`. -/
def Call.Allowed (c : Call) (w : World) : Prop :=
  match c with
  | Call.init _ _ _ => True
  | Call.axes self _ _ => (Klass.Device, self) ∈ w.objects
  | Call.buttons self _ _ => (Klass.Device, self) ∈ w.objects
  | Call.name self _ _ => (Klass.Device, self) ∈ w.objects
  | Call.axes_maps self _ _ => (Klass.Device, self) ∈ w.objects
  | Call.version self _ written => (Klass.Device, self) ∈ w.objects ∧
      ∀ v, written = some v → -2147483648 ≤ v ∧ v < 2147483648
  | Call.event self _ => (Klass.Device, self) ∈ w.objects
  | Call.close self => (Klass.Device, self) ∈ w.objects
  | Call.time self => (Klass.Event, self) ∈ w.objects
  | Call.value self => (Klass.Event, self) ∈ w.objects
  | Call.number self => (Klass.Event, self) ∈ w.objects
  | Call.type self => (Klass.Event, self) ∈ w.objects
  | Call.collect self => (Klass.Device, self) ∈ w.objects

/-- The states a Ruby program can bring the binding into. -/
inductive Reachable : World → Prop
  | boot : Reachable World.boot
  | step (w : World) (c : Call) : Reachable w → c.Allowed w → Reachable (c.run w).2

/-- The invariant of the reachable states: the table has `MAX_JS` slots, every
object wraps a cell `malloc` returned, every `Device` object wraps a cell that
is not freed, and a cell an object wraps holds, unless freed, a descriptor that
is at least 0 and below `MAX_JS`. -/
def Inv (w : World) : Prop :=
  w.jse.length = MAX_JS ∧
    (∀ k p, (k, p) ∈ w.objects → ∃ a : Nat, p = some a ∧ a < w.heap.length) ∧
    (∀ p, (Klass.Device, p) ∈ w.objects → ∃ d : Int, w.load p = some d) ∧
    (∀ k p d, (k, p) ∈ w.objects → w.load p = some d → 0 ≤ d ∧ d < MAX_JS)

/-- What the four accessors of an event return: time, type, number, value. -/
def eventView (w : World) (ev : Ptr) : Outcome × Outcome × Outcome × Outcome :=
  (js_event_time w ev, js_event_type w ev, js_event_number w ev, js_event_value w ev)

/-- The view of an event that shows the fields of a record. -/
def viewOf (e : js_event) : Outcome × Outcome × Outcome × Outcome :=
  (Outcome.ret (VALUE.fixnum e.time), Outcome.ret (VALUE.fixnum e.type),
    Outcome.ret (VALUE.fixnum e.number), Outcome.ret (VALUE.fixnum e.value))

/-- A state with another trace. -/
def World.withTrace (w : World) (t : List Syscall) : World := { w with trace := t }

/-- The state after `Device.new` on the boot state got descriptor 3. -/
def world3 : World := (js_dev_init World.boot "/dev/input/js0" true 3).2

/-- The state after `Device#event` read one full record. -/
def readRecord (w : World) (self : Ptr) (e : js_event) : World :=
  (js_dev_event_get w self (ReadResult.bytes (encode e))).2

/-- A button record: time 1000, button 3 pressed. -/
def press1000 : js_event := { time := 1000, value := 1, type := 1, number := 3 }

/-- A button record: time 2000, button 3 released. -/
def release2000 : js_event := { time := 2000, value := 0, type := 1, number := 3 }

/-- The constant `Event::JSBUTTON` that `Init_rjoystick` defines. -/
def JSBUTTON : VALUE := INT2FIX JS_EVENT_BUTTON

/-- The constant `Event::JSAXIS` that `Init_rjoystick` defines. -/
def JSAXIS : VALUE := INT2FIX JS_EVENT_AXIS

/-- The state after a device was opened on descriptor 3, one record was read
from it, and the collector reclaimed the device while the event is still held. -/
def staleWorld : World := collectDevice (readRecord world3 (some 0) press1000) (some 0)

/-! ## Words of the specification -/

/-- Bits `lo` to `lo + len - 1` of a natural number. -/
def bitField (n lo len : Nat) : Nat := n / 2 ^ lo % 2 ^ len

/-- The `int` a 32-bit pattern stands for (two's complement). -/
def toInt32 (u : Nat) : Int :=
  if u % 4294967296 < 2147483648 then ((u % 4294967296 : Nat) : Int)
  else ((u % 4294967296 : Nat) : Int) - 4294967296

/-! ## Arithmetic of the version text -/

theorem ldiff_255 (m : Nat) : Nat.ldiff 255 m = 255 - m % 256 := by
  apply Nat.eq_of_testBit_eq
  intro i
  rw [Nat.testBit_ldiff]
  have h1 : (255 : Nat) = 2 ^ 8 - 1 := by norm_num
  have h2 : 255 - m % 256 = 2 ^ 8 - (m % 2 ^ 8 + 1) := by omega
  rw [h2, Nat.testBit_two_pow_sub_succ (Nat.mod_lt _ (by norm_num)), Nat.testBit_mod_two_pow,
    h1, Nat.testBit_two_pow_sub_one]
  by_cases h : i < 8 <;> simp [h]

theorem land_255 (x : Int) : Int.land x 0xff = x % 256 := by
  cases x with
  | ofNat m =>
    show ((m &&& 255 : Nat) : Int) = _
    have : m &&& 255 = m % 256 := Nat.and_pow_two_sub_one_eq_mod m 8
    rw [this]; rfl
  | negSucc m =>
    show ((Nat.ldiff 255 m : Nat) : Int) = _
    rw [ldiff_255, Int.negSucc_emod _ (by norm_num)]
    omega

theorem versionArgs_eq (version : Int) :
    versionArgs version = (version / 65536, version / 256 % 256, version % 256) := by
  simp only [versionArgs, land_255, Int.shiftRight_eq_div_pow]
  norm_num

theorem fmtD_ofNat (n : Nat) : fmtD (n : Int) = toString n := rfl

theorem fmtD_negSucc (n : Nat) : fmtD (Int.negSucc n) = "-" ++ Nat.repr (n + 1) := rfl

theorem fmtD_length_nonneg (i : Int) (e : Nat) (he : 0 < e) (h0 : 0 ≤ i) (h1 : i < 10 ^ e) :
    (fmtD i).length ≤ e := by
  obtain ⟨n, rfl⟩ := Int.eq_ofNat_of_zero_le h0
  rw [fmtD_ofNat]
  exact Nat.repr_length n e he (by exact_mod_cast h1)

theorem fmtD_length_neg (i : Int) (e : Nat) (he : 0 < e) (h0 : i < 0) (h1 : -(10 ^ e) < i) :
    (fmtD i).length ≤ e + 1 := by
  cases i with
  | ofNat n => exact absurd h0 (by simp)
  | negSucc n =>
    rw [fmtD_negSucc, String.length_append]
    have h2 : n + 1 < 10 ^ e := by
      have h5 : (Int.negSucc n) = -((n : Int) + 1) := rfl
      rw [h5] at h1
      have h3 : ((n : Int) + 1) < 10 ^ e := by linarith
      exact_mod_cast h3
    have h6 := Nat.repr_length (n + 1) e he h2
    have h4 : ("-" : String).length = 1 := rfl
    omega

theorem fmtD_length_byte (i : Int) (h0 : 0 ≤ i) (h1 : i < 256) : (fmtD i).length ≤ 3 :=
  fmtD_length_nonneg i 3 (by decide) h0 (by norm_num; omega)

theorem fmtD_length_short (i : Int) (h0 : -32768 ≤ i) (h1 : i < 32768) :
    (fmtD i).length ≤ 6 := by
  by_cases h : 0 ≤ i
  · have := fmtD_length_nonneg i 5 (by decide) h (by norm_num; omega)
    omega
  · exact fmtD_length_neg i 5 (by decide) (by omega) (by norm_num; omega)

theorem versionText_length (version : Int) :
    (versionText version).length =
      (fmtD (version / 65536)).length + (fmtD (version / 256 % 256)).length
        + (fmtD (version % 256)).length + 3 := by
  have h1 : (".": String).length = 1 := rfl
  have h2 : ("\n": String).length = 1 := rfl
  simp only [versionText, versionArgs_eq, String.length_append, h1, h2]
  omega

theorem versionText_length_le (version : Int) (hlo : -2147483648 ≤ version)
    (hhi : version < 2147483648) : (versionText version).length ≤ 15 := by
  rw [versionText_length]
  have ha := fmtD_length_short (version / 65536) (by omega) (by omega)
  have hb := fmtD_length_byte (version / 256 % 256) (by omega) (by omega)
  have hc := fmtD_length_byte (version % 256) (by omega) (by omega)
  omega

/-! ## Records and bytes -/

theorem decode_encode_append (e : js_event) (rest : List Byte) (h : e.WF) :
    decode (encode e ++ rest) = e := by
  obtain ⟨ht, hv1, hv2, hty, hn⟩ := h
  cases e with
  | mk t v ty n =>
    simp only [] at ht hv1 hv2 hty hn
    simp only [decode, encode, slotTime, slotValue, slotType, slotNumber, byteAt, toByte,
      List.cons_append, List.get?_cons_zero, List.get?_cons_succ, Option.getD_some,
      js_event.mk.injEq]
    refine ⟨by omega, ?_, by omega, by omega⟩
    split <;> omega

theorem decode_encode (e : js_event) (h : e.WF) : decode (encode e) = e := by
  have := decode_encode_append e [] h
  simpa using this

theorem encode_length (e : js_event) : (encode e).length = 8 := rfl

/-! ## Cells -/

theorem load_eq_some (w : World) (a : Nat) (d : Int) :
    w.load (some a) = some d ↔ w.heap.get? a = some (some d) := by
  simp only [World.load]
  split
  · rename_i d2 heq
    rw [heq]
    simp
  · rename_i hne
    constructor
    · intro h
      exact absurd h (by simp)
    · intro h
      exact absurd h (hne d)

theorem load_lt (w : World) (a : Nat) (d : Int) (h : w.load (some a) = some d) :
    a < w.heap.length := by
  rw [load_eq_some, List.get?_eq_getElem?] at h
  by_contra hlt
  rw [List.getElem?_eq_none (by omega)] at h
  exact absurd h (by simp)

theorem load_congr (w2 w : World) (p : Ptr) (h : w2.heap = w.heap) : w2.load p = w.load p := by
  cases p with
  | none => rfl
  | some a => simp only [World.load, h]

theorem load_append_lt (w : World) (a : Nat) (x : Option Int) (h : a < w.heap.length) :
    World.load { w with heap := w.heap ++ [x] } (some a) = w.load (some a) := by
  simp only [World.load, List.get?_eq_getElem?]
  rw [List.getElem?_append_left h]

theorem load_append (w : World) (p : Ptr) (d : Int) (x : Option Int)
    (h : w.load p = some d) : World.load { w with heap := w.heap ++ [x] } p = some d := by
  cases p with
  | none => simp [World.load] at h
  | some a => rw [load_append_lt w a x (load_lt w a d h)]; exact h

theorem load_append_new (w : World) (d : Int) :
    World.load { w with heap := w.heap ++ [some d] } (some w.heap.length) = some d := by
  rw [load_eq_some]
  simp only [List.get?_eq_getElem?]
  rw [List.getElem?_append_right (le_refl _)]
  simp

theorem load_free (w : World) (self p : Ptr) :
    (jsdevice_free w self).load p = if p = self then none else w.load p := by
  cases self with
  | none =>
    cases p with
    | none => rfl
    | some b => simp [jsdevice_free]
  | some a =>
    cases p with
    | none => simp [jsdevice_free, World.load]
    | some b =>
      by_cases hab : b = a
      · subst hab
        simp only [jsdevice_free, World.load, List.get?_eq_getElem?, if_true]
        by_cases hlt : b < w.heap.length
        · simp [List.getElem?_set_self, hlt]
        · rw [List.getElem?_eq_none (by simpa using hlt)]
      · have hne : a ≠ b := fun h => hab h.symm
        have hp : ¬ (some b : Ptr) = some a := by simpa using hab
        simp only [jsdevice_free, World.load, List.get?_eq_getElem?, if_neg hp,
          List.getElem?_set_ne hne]

theorem load_collect (w : World) (self p : Ptr) :
    (collectDevice w self).load p = if p = self then none else w.load p :=
  load_free w self p

/-! ## The invariant -/

theorem inv_boot : Inv World.boot := by
  refine ⟨by simp [World.boot], ?_, ?_, ?_⟩
  · intro k p h
    simp [World.boot] at h
  · intro p h
    simp [World.boot] at h
  · intro k p d h
    simp [World.boot] at h

theorem inv_heap_append (w : World) (x : Option Int) (h : Inv w) :
    Inv { w with heap := w.heap ++ [x] } := by
  obtain ⟨hlen, hptr, hdev, hrng⟩ := h
  refine ⟨hlen, ?_, ?_, ?_⟩
  · intro k p hm
    obtain ⟨a, ha, hlt⟩ := hptr k p hm
    refine ⟨a, ha, ?_⟩
    simp only [List.length_append, List.length_singleton]
    omega
  · intro p hm
    obtain ⟨d, hd⟩ := hdev p hm
    exact ⟨d, load_append w p d x hd⟩
  · intro k p d hm hl
    obtain ⟨a, ha, hlt⟩ := hptr k p hm
    subst ha
    rw [load_append_lt w a x hlt] at hl
    exact hrng k _ d hm hl

theorem inv_init (w : World) (dev_path : String) (mallocOk : Bool) (openRet : Int)
    (h : Inv w) : Inv (js_dev_init w dev_path mallocOk openRet).2 := by
  have hold := inv_heap_append w (some openRet) h
  unfold js_dev_init
  by_cases hm : mallocOk = true
  · rw [if_pos hm]
    by_cases h0 : openRet ≥ 0
    · by_cases h1 : openRet ≥ (MAX_JS : Int)
      · rw [if_pos h0, if_pos h1]
        exact hold
      · rw [if_pos h0, if_neg h1]
        obtain ⟨hlen, hptr, hdev, hrng⟩ := hold
        have hnew := load_append_new w openRet
        refine ⟨hlen, ?_, ?_, ?_⟩
        · intro k p hmem
          simp only [Data_Wrap_Struct, World.issue, List.mem_append, List.mem_singleton,
            Prod.mk.injEq] at hmem
          rcases hmem with hmem | ⟨_, rfl⟩
          · exact hptr k p hmem
          · exact ⟨w.heap.length, rfl, by simp [Data_Wrap_Struct, World.issue]⟩
        · intro p hmem
          simp only [Data_Wrap_Struct, World.issue, List.mem_append, List.mem_singleton,
            Prod.mk.injEq] at hmem
          rcases hmem with hmem | ⟨_, rfl⟩
          · exact hdev p hmem
          · exact ⟨openRet, hnew⟩
        · intro k p d hmem hl
          simp only [Data_Wrap_Struct, World.issue, List.mem_append, List.mem_singleton,
            Prod.mk.injEq] at hmem
          rcases hmem with hmem | ⟨_, rfl⟩
          · exact hrng k p d hmem hl
          · have hl2 : World.load { w with heap := w.heap ++ [some openRet] }
                (some w.heap.length) = some d := hl
            rw [hnew] at hl2
            have hd : openRet = d := Option.some.inj hl2
            subst hd
            exact ⟨h0, by omega⟩
    · rw [if_neg h0]
      exact hold
  · rw [if_neg hm]
    exact h

theorem live_object_in_bounds (w : World) (h : Inv w) (k : Klass) (p : Ptr) (d : Int)
    (hp : (k, p) ∈ w.objects) (hl : w.load p = some d) :
    ∃ s : List Byte, 0 ≤ d ∧ d < MAX_JS ∧ d.toNat < w.jse.length
      ∧ w.jse.get? d.toNat = some s ∧ lookup w p = Lookup.slot s := by
  obtain ⟨hlen, hptr, _, hrng⟩ := h
  obtain ⟨h0, h1⟩ := hrng k p d hp hl
  have hdl : d.toNat < w.jse.length := by
    rw [hlen]
    omega
  refine ⟨w.jse.get ⟨d.toNat, hdl⟩, h0, h1, hdl, List.get?_eq_get hdl, ?_⟩
  obtain ⟨a, ha, _⟩ := hptr k p hp
  subst ha
  have hge : d ≥ 0 := h0
  simp only [lookup, hl, hge, if_true, List.get?_eq_get hdl]

theorem lookup_of_inv (w : World) (h : Inv w) (p : Ptr)
    (hp : (Klass.Device, p) ∈ w.objects) :
    ∃ (d : Nat) (s : List Byte), w.load p = some (d : Int) ∧ d < MAX_JS ∧ d < w.jse.length
      ∧ w.jse.get? d = some s ∧ lookup w p = Lookup.slot s := by
  obtain ⟨di, hl⟩ := h.2.2.1 p hp
  obtain ⟨s, h0, h1, hdl, hs, hlk⟩ := live_object_in_bounds w h _ p di hp hl
  have hd : ((di.toNat : Nat) : Int) = di := Int.toNat_of_nonneg h0
  refine ⟨di.toNat, s, by rw [hd]; exact hl, by omega, hdl, hs, hlk⟩

theorem inv_event_get (w : World) (self : Ptr) (rd : ReadResult) (h : Inv w)
    (hself : (Klass.Device, self) ∈ w.objects) : Inv (js_dev_event_get w self rd).2 := by
  obtain ⟨d, s, hd, hlt, _, hs, _⟩ := lookup_of_inv w h self hself
  obtain ⟨hlen, hptr, hdev, hrng⟩ := h
  unfold js_dev_event_get
  simp only [hd]
  have hneg : ¬ ((d : Int) < 0) := by omega
  rw [if_neg hneg]
  simp only [Int.toNat_ofNat, hs]
  split
  · refine ⟨by simpa [Data_Wrap_Struct, World.issue] using hlen, ?_, ?_, ?_⟩
    · intro k p hmem
      simp only [Data_Wrap_Struct, World.issue, List.mem_append, List.mem_singleton,
        Prod.mk.injEq] at hmem
      rcases hmem with hmem | ⟨_, rfl⟩
      · exact hptr k p hmem
      · exact hptr _ _ hself
    · intro p hmem
      simp only [Data_Wrap_Struct, World.issue, List.mem_append, List.mem_singleton,
        Prod.mk.injEq] at hmem
      rcases hmem with hmem | ⟨hk, _⟩
      · exact hdev p hmem
      · exact absurd hk (by decide)
    · intro k p d2 hmem hl
      simp only [Data_Wrap_Struct, World.issue, List.mem_append, List.mem_singleton,
        Prod.mk.injEq] at hmem
      rcases hmem with hmem | ⟨_, rfl⟩
      · exact hrng k p d2 hmem hl
      · exact hrng _ _ d2 hself hl
  · exact ⟨by simpa [World.issue] using hlen, hptr, hdev, hrng⟩

theorem inv_collect (w : World) (self : Ptr) (h : Inv w) : Inv (collectDevice w self) := by
  obtain ⟨hlen, hptr, hdev, hrng⟩ := h
  have hmem : ∀ k p, (k, p) ∈ (collectDevice w self).objects →
      (k, p) ∈ w.objects ∧ (k, p) ≠ (Klass.Device, self) := by
    intro k p hm
    cases self with
    | none => simpa [collectDevice, jsdevice_free, List.mem_filter] using hm
    | some a => simpa [collectDevice, jsdevice_free, List.mem_filter] using hm
  have hheap : (collectDevice w self).heap.length = w.heap.length := by
    cases self with
    | none => rfl
    | some a => simp [collectDevice, jsdevice_free]
  have hjse : (collectDevice w self).jse = w.jse := by
    cases self with
    | none => rfl
    | some a => rfl
  refine ⟨by rw [hjse]; exact hlen, ?_, ?_, ?_⟩
  · intro k p hm
    obtain ⟨a, ha, hlt⟩ := hptr k p (hmem k p hm).1
    exact ⟨a, ha, by rw [hheap]; exact hlt⟩
  · intro p hm
    obtain ⟨hin, hne⟩ := hmem _ p hm
    obtain ⟨d, hd⟩ := hdev p hin
    have hps : ¬ p = self := fun hh => hne (by rw [hh])
    exact ⟨d, by rw [load_collect, if_neg hps]; exact hd⟩
  · intro k p d hm hl
    rw [load_collect] at hl
    by_cases hps : p = self
    · rw [if_pos hps] at hl
      exact absurd hl (by simp)
    · rw [if_neg hps] at hl
      exact hrng k p d (hmem k p hm).1 hl

theorem inv_step (w : World) (c : Call) (h : Inv w) (hc : c.Allowed w) :
    Inv (c.run w).2 := by
  cases c with
  | init dev_path mallocOk openRet => exact inv_init w dev_path mallocOk openRet h
  | event self rd => exact inv_event_get w self rd h hc
  | collect self => exact inv_collect w self h
  | axes self r x =>
    simp only [Call.run, js_dev_axes]
    split
    · exact h
    · split <;> exact h
  | buttons self r x =>
    simp only [Call.run, js_dev_buttons]
    split
    · exact h
    · split <;> exact h
  | name self r x =>
    simp only [Call.run, js_dev_name]
    split
    · exact h
    · split
      · exact h
      · split
        · exact h
        · split <;> exact h
  | axes_maps self r x =>
    simp only [Call.run, js_dev_axes_maps]
    split
    · exact h
    · split <;> exact h
  | version self r x =>
    simp only [Call.run, js_dev_version]
    split
    · exact h
    · split
      · exact h
      · split <;> exact h
  | close self =>
    simp only [Call.run, js_dev_close]
    split <;> exact h
  | time self => exact h
  | value self => exact h
  | number self => exact h
  | type self => exact h

theorem reachable_inv (w : World) (h : Reachable w) : Inv w := by
  induction h with
  | boot => exact inv_boot
  | step w c _ hc ih => exact inv_step w c ih hc

theorem load_event_get (w : World) (self p : Ptr) (rd : ReadResult) :
    (js_dev_event_get w self rd).2.load p = w.load p := by
  apply load_congr
  simp only [js_dev_event_get]
  split
  · rfl
  · split
    · rfl
    · split
      · rfl
      · split <;> rfl

theorem method_keeps_cells (c : Call) (w : World) (p : Ptr) (d : Int)
    (hc : ∀ q, c ≠ Call.collect q) (h : w.load p = some d) :
    (c.run w).2.load p = some d := by
  cases c with
  | init dev_path mallocOk openRet =>
    simp only [Call.run, js_dev_init]
    by_cases hm : mallocOk = true
    · rw [if_pos hm]
      have := load_append w p d (some openRet) h
      split
      · split
        · exact this
        · exact this
      · exact this
    · rw [if_neg hm]; exact h
  | event self rd =>
    simp only [Call.run]
    rw [load_event_get]
    exact h
  | collect self => exact absurd rfl (hc self)
  | axes self r x =>
    simp only [Call.run, js_dev_axes]
    split
    · exact h
    · split <;> exact h
  | buttons self r x =>
    simp only [Call.run, js_dev_buttons]
    split
    · exact h
    · split <;> exact h
  | name self r x =>
    simp only [Call.run, js_dev_name]
    split
    · exact h
    · split
      · exact h
      · split
        · exact h
        · split <;> exact h
  | axes_maps self r x =>
    simp only [Call.run, js_dev_axes_maps]
    split
    · exact h
    · split <;> exact h
  | version self r x =>
    simp only [Call.run, js_dev_version]
    split
    · exact h
    · split
      · exact h
      · split <;> exact h
  | close self =>
    simp only [Call.run, js_dev_close]
    split <;> exact h
  | time self => exact h
  | value self => exact h
  | number self => exact h
  | type self => exact h

theorem init_handle (w : World) (dev_path : String) (mallocOk : Bool) (openRet : Int)
    (k : Klass) (p : Ptr)
    (h : (js_dev_init w dev_path mallocOk openRet).1 = Outcome.ret (VALUE.data k p)) :
    k = Klass.Device ∧ p = some w.heap.length ∧ 0 ≤ openRet ∧ openRet < MAX_JS
      ∧ (js_dev_init w dev_path mallocOk openRet).2.load p = some openRet
      ∧ (k, p) ∈ (js_dev_init w dev_path mallocOk openRet).2.objects := by
  unfold js_dev_init at h ⊢
  by_cases hm : mallocOk = true
  · rw [if_pos hm] at h ⊢
    by_cases h0 : openRet ≥ 0
    · by_cases h1 : openRet ≥ (MAX_JS : Int)
      · simp [h0, h1] at h
      · rw [if_pos h0, if_neg h1] at h ⊢
        simp only [Data_Wrap_Struct, Outcome.ret.injEq, VALUE.data.injEq] at h
        obtain ⟨rfl, rfl⟩ := h
        exact ⟨rfl, rfl, h0, by omega, load_append_new w openRet, by simp [Data_Wrap_Struct]⟩
    · simp [h0] at h
  · simp [hm] at h

/-! ## Reading events -/

theorem event_get_eq (w : World) (self : Ptr) (rd : ReadResult) (d : Nat) (s : List Byte)
    (hd : w.load self = some (d : Int)) (hs : w.jse.get? d = some s) :
    js_dev_event_get w self rd =
      if rd.ret JS_EVENT_SIZE > 0 then
        (Outcome.ret (VALUE.data Klass.Event self),
          { jse := w.jse.set d (overwrite s (rd.delivered JS_EVENT_SIZE)),
            heap := w.heap,
            objects := w.objects ++ [(Klass.Event, self)],
            trace := w.trace ++ [Syscall.sys_read d JS_EVENT_SIZE] })
      else
        (Outcome.ret VALUE.Qnil,
          { jse := w.jse.set d (overwrite s (rd.delivered JS_EVENT_SIZE)),
            heap := w.heap,
            objects := w.objects,
            trace := w.trace ++ [Syscall.sys_read d JS_EVENT_SIZE] }) := by
  have hneg : ¬ ((d : Int) < 0) := by omega
  simp only [js_dev_event_get, hd, if_neg hneg, Int.toNat_ofNat, hs, Data_Wrap_Struct,
    World.issue]

theorem lookup_set (w w2 : World) (p : Ptr) (d dp : Nat) (b : List Byte)
    (hheap : w2.heap = w.heap) (hjse : w2.jse = w.jse.set d b) (hd : d < w.jse.length)
    (hp : w.load p = some (dp : Int)) :
    lookup w2 p = if dp = d then Lookup.slot b else lookup w p := by
  have hp2 : w2.load p = some (dp : Int) := by rw [load_congr w2 w p hheap]; exact hp
  cases p with
  | none => simp [World.load] at hp
  | some a =>
    have hge : (dp : Int) ≥ 0 := by omega
    simp only [lookup, hp, hp2, hjse, hge, if_true, Int.toNat_ofNat, List.get?_eq_getElem?]
    by_cases he : dp = d
    · subst he
      simp [hd]
    · have hne : d ≠ dp := fun h => he h.symm
      simp [he, List.getElem?_set_ne hne]

theorem lookup_event_get (w : World) (self p : Ptr) (rd : ReadResult) (d dp : Nat)
    (s : List Byte) (hd : w.load self = some (d : Int)) (hs : w.jse.get? d = some s)
    (hp : w.load p = some (dp : Int)) :
    lookup (js_dev_event_get w self rd).2 p =
      if dp = d then Lookup.slot (overwrite s (rd.delivered JS_EVENT_SIZE)) else lookup w p := by
  have hlt : d < w.jse.length := by
    by_contra hge
    rw [List.get?_eq_getElem?, List.getElem?_eq_none (by omega)] at hs
    exact absurd hs (by simp)
  rw [event_get_eq w self rd d s hd hs]
  split
  · exact lookup_set w _ p d dp _ rfl rfl hlt hp
  · exact lookup_set w _ p d dp _ rfl rfl hlt hp

theorem eventView_of_lookup (w : World) (p : Ptr) (s : List Byte)
    (h : lookup w p = Lookup.slot s) : eventView w p = viewOf (decode s) := by
  simp [eventView, viewOf, decode, js_event_time, js_event_type, js_event_number,
    js_event_value, INT2FIX, h]

theorem eventView_congr (w w2 : World) (p : Ptr) (h : lookup w2 p = lookup w p) :
    eventView w2 p = eventView w p := by
  simp [eventView, js_event_time, js_event_type, js_event_number, js_event_value, h]

theorem overwrite_full (s : List Byte) (e : js_event) :
    overwrite s ((ReadResult.bytes (encode e)).delivered JS_EVENT_SIZE)
      = encode e ++ s.drop 8 := rfl

theorem eventView_after_full_read (w : World) (self p : Ptr) (e : js_event) (d : Nat)
    (s : List Byte) (hd : w.load self = some (d : Int)) (hs : w.jse.get? d = some s)
    (hp : w.load p = some (d : Int)) (he : e.WF) :
    eventView (js_dev_event_get w self (ReadResult.bytes (encode e))).2 p = viewOf e := by
  have hl := lookup_event_get w self p (ReadResult.bytes (encode e)) d d s hd hs hp
  rw [if_pos rfl, overwrite_full] at hl
  rw [eventView_of_lookup _ _ _ hl, decode_encode_append e _ he]

theorem world3_reachable : Reachable world3 :=
  Reachable.step World.boot (Call.init "/dev/input/js0" true 3) Reachable.boot trivial

theorem set_get?_self {α : Type} (l : List α) (i : Nat) (a : α) (h : l.get? i = some a) :
    l.set i a = l := by
  induction l generalizing i with
  | nil => rfl
  | cons x xs ih =>
    cases i with
    | zero =>
      simp only [List.get?_cons_zero, Option.some.injEq] at h
      simp [h]
    | succ j =>
      simp only [List.get?_cons_succ] at h
      simp [ih j h]

theorem slot_exists (w : World) (h : Inv w) (d : Nat) (hlt : d < MAX_JS) :
    ∃ s, w.jse.get? d = some s := by
  have hdl : d < w.jse.length := by rw [h.1]; exact hlt
  exact ⟨w.jse.get ⟨d, hdl⟩, List.get?_eq_get hdl⟩

theorem lookup_close (w : World) (q p : Ptr) : lookup (js_dev_close w q).2 p = lookup w p := by
  simp only [js_dev_close]
  split <;> rfl

/-! ## The version text -/

/-- C1: for every packed version `v < 2^24` the version query stores, the three
numbers `js_dev_version` formats are bits 16-23, bits 8-15 and bits 0-7 of `v`,
each below 256, and the text it returns is these three numbers in decimal, in
that order, separated by dots (and ended by a newline); `0x020401` gives 2, 4, 1. -/
theorem version_decoding_exact (w : World) (self : Ptr) (fd : Int) (r : Int) (v : Nat)
    (hfd : w.load self = some fd) (hr : r ≠ -1) (hv : v < 2 ^ 24) :
    versionArgs (v : Int)
        = (((bitField v 16 8 : Nat) : Int), ((bitField v 8 8 : Nat) : Int),
            ((bitField v 0 8 : Nat) : Int))
      ∧ bitField v 16 8 < 256 ∧ bitField v 8 8 < 256 ∧ bitField v 0 8 < 256
      ∧ (js_dev_version w self r (some (v : Int))).1
          = Outcome.ret (VALUE.str (toString (bitField v 16 8) ++ "." ++
              toString (bitField v 8 8) ++ "." ++ toString (bitField v 0 8) ++ "\n"))
      ∧ versionArgs 0x020401 = (2, 4, 1)
      ∧ versionText 0x020401 = "2.4.1\n" := by
  have hargs : versionArgs (v : Int)
      = (((bitField v 16 8 : Nat) : Int), ((bitField v 8 8 : Nat) : Int),
            ((bitField v 0 8 : Nat) : Int)) := by
    rw [versionArgs_eq]
    simp only [bitField]
    have h1 : v / 2 ^ 16 % 2 ^ 8 = v / 65536 := by
      have : v / 65536 < 256 := by omega
      norm_num; omega
    rw [h1]
    push_cast
    norm_num
  have hb1 : bitField v 16 8 < 256 := Nat.mod_lt _ (by norm_num)
  have hb2 : bitField v 8 8 < 256 := Nat.mod_lt _ (by norm_num)
  have hb3 : bitField v 0 8 < 256 := Nat.mod_lt _ (by norm_num)
  have htext : versionText (v : Int) = toString (bitField v 16 8) ++ "." ++
      toString (bitField v 8 8) ++ "." ++ toString (bitField v 0 8) ++ "\n" := by
    simp only [versionText, hargs, fmtD_ofNat]
  have hlen : (versionText (v : Int)).length + 1 ≤ 16 := by
    have := versionText_length_le (v : Int) (by omega) (by omega)
    omega
  refine ⟨hargs, hb1, hb2, hb3, ?_, ?_, ?_⟩
  · simp only [js_dev_version, hfd, Option.getD_some, if_neg hr, if_pos hlen]
    rw [htext]
  · rw [versionArgs_eq]; decide
  · simp only [versionText, versionArgs_eq]; decide

/-- C1, at a device opened on descriptor 3 whose driver answers `0x020401`. -/
theorem version_decoding_exact_witness :
    (js_dev_version (js_dev_init World.boot "/dev/input/js0" true 3).2 (some 0) 0
        (some ((0x020401 : Nat) : Int))).1
      = Outcome.ret (VALUE.str (toString (bitField 0x020401 16 8) ++ "." ++
          toString (bitField 0x020401 8 8) ++ "." ++ toString (bitField 0x020401 0 8) ++ "\n")) :=
  (version_decoding_exact (js_dev_init World.boot "/dev/input/js0" true 3).2 (some 0) 3 0
    0x020401 (by decide) (by decide) (by decide)).2.2.2.2.1

/-- C10: for every 32-bit `int` value of `version` the text `sprintf` produces
has at most 15 characters, so with its NUL it fits `char js_version[16]` and
`js_dev_version` never writes past the buffer; the pattern `0x8000FFFF` formats
as `"-32768.255.255\n"`, which has 15 characters. -/
theorem version_text_fits_buffer (version : Int) (hlo : -2147483648 ≤ version)
    (hhi : version < 2147483648) :
    (versionText version).length ≤ 15
      ∧ (versionText version).length + 1 ≤ 16
      ∧ (∀ (w : World) (self : Ptr) (fd r : Int), w.load self = some fd →
          (js_dev_version w self r (some version)).1 ≠ Outcome.undefined)
      ∧ versionText (toInt32 0x8000FFFF) = "-32768.255.255\n"
      ∧ (versionText (toInt32 0x8000FFFF)).length = 15 := by
  have hlen := versionText_length_le version hlo hhi
  have hx : versionText (toInt32 0x8000FFFF) = "-32768.255.255\n" := by
    simp only [versionText, versionArgs_eq]; decide
  refine ⟨hlen, by omega, ?_, hx, ?_⟩
  · intro w self fd r hfd
    simp only [js_dev_version, hfd, Option.getD_some]
    by_cases hr : r = -1
    · simp [hr]
    · have h16 : (versionText version).length + 1 ≤ 16 := by omega
      simp [hr, h16]
  · rw [hx]; decide

/-- C10, at the pattern `0x8000FFFF`. -/
theorem version_text_fits_buffer_witness :
    (versionText (toInt32 0x8000FFFF)).length ≤ 15 :=
  (version_text_fits_buffer (toInt32 0x8000FFFF) (by decide) (by decide)).1

/-! ## The event table -/

theorem staleWorld_reachable : Reachable staleWorld :=
  Reachable.step (readRecord world3 (some 0) press1000) (Call.collect (some 0))
    (Reachable.step world3 (Call.event (some 0) (ReadResult.bytes (encode press1000)))
      world3_reachable
      (by
        show (Klass.Device, (some 0 : Ptr)) ∈ world3.objects
        decide))
    (by
      show (Klass.Device, (some 0 : Ptr)) ∈ (readRecord world3 (some 0) press1000).objects
      decide)

/-- C9 fails on the code: a device is opened on descriptor 3 and its handle
wraps cell 0, one record is read and the event wraps the same cell 0 and shows
slot `jse[3]`; the program drops the device, the collector runs `jsdevice_free`
on cell 0, and the event the program still holds reads the freed cell: its
accessors select no slot of the table, their behaviour is undefined. -/
theorem event_outlives_device :
    (js_dev_init World.boot "/dev/input/js0" true 3).1
        = Outcome.ret (VALUE.data Klass.Device (some 0))
      ∧ world3.load (some 0) = some 3
      ∧ (js_dev_event_get world3 (some 0) (ReadResult.bytes (encode press1000))).1
          = Outcome.ret (VALUE.data Klass.Event (some 0))
      ∧ lookup (readRecord world3 (some 0) press1000) (some 0)
          = Lookup.slot (encode press1000)
      ∧ Reachable staleWorld
      ∧ (Klass.Event, some 0) ∈ staleWorld.objects
      ∧ staleWorld.load (some 0) = none
      ∧ lookup staleWorld (some 0) = Lookup.undefined
      ∧ eventView staleWorld (some 0)
          = (Outcome.undefined, Outcome.undefined, Outcome.undefined, Outcome.undefined) :=
  ⟨by decide, by decide, by decide, by decide, staleWorld_reachable, by decide, by decide,
    by decide, by decide⟩

/-! ## Decoding events -/

/-- C2: for every record (time `t`, type `ty`, number `n`, value `v`, each in
the range of its C type) that one `read` on a device delivers in full,
`js_dev_event_get` returns an event whose accessors return the Ruby integers
`t`, `ty`, `n` and `v`, whatever the type tag is; the record 1000,
`JS_EVENT_BUTTON`, 3, 1 gives 1000, the constant `Event::JSBUTTON` (the Ruby
integer 1), 3, 1. -/
theorem event_decoding_exact (w : World) (self : Ptr) (e : js_event) (hw : Reachable w)
    (hself : (Klass.Device, self) ∈ w.objects) (he : e.WF) :
    (js_dev_event_get w self (ReadResult.bytes (encode e))).1
        = Outcome.ret (VALUE.data Klass.Event self)
      ∧ js_event_time (js_dev_event_get w self (ReadResult.bytes (encode e))).2 self
          = Outcome.ret (VALUE.fixnum (e.time : Int))
      ∧ js_event_type (js_dev_event_get w self (ReadResult.bytes (encode e))).2 self
          = Outcome.ret (VALUE.fixnum (e.type : Int))
      ∧ js_event_number (js_dev_event_get w self (ReadResult.bytes (encode e))).2 self
          = Outcome.ret (VALUE.fixnum (e.number : Int))
      ∧ js_event_value (js_dev_event_get w self (ReadResult.bytes (encode e))).2 self
          = Outcome.ret (VALUE.fixnum e.value)
      ∧ eventView (js_dev_event_get w self (ReadResult.bytes
            (encode { time := 1000, value := 1, type := 1, number := 3 }))).2 self
          = (Outcome.ret (VALUE.fixnum 1000), Outcome.ret (VALUE.fixnum 1),
              Outcome.ret (VALUE.fixnum 3), Outcome.ret (VALUE.fixnum 1))
      ∧ JSBUTTON = VALUE.fixnum 1 := by
  obtain ⟨d, s, hd, _, _, hs, _⟩ := lookup_of_inv w (reachable_inv w hw) _ hself
  have hv := eventView_after_full_read w self self e d s hd hs hd he
  have hx := eventView_after_full_read w self self
    { time := 1000, value := 1, type := 1, number := 3 } d s hd hs hd (by decide)
  simp only [eventView, viewOf, Prod.mk.injEq] at hv
  obtain ⟨h1, h2, h3, h4⟩ := hv
  refine ⟨?_, h1, h2, h3, h4, hx, rfl⟩
  rw [event_get_eq w self _ d s hd hs]
  have hpos : (ReadResult.bytes (encode e)).ret JS_EVENT_SIZE > 0 := by
    simp [ReadResult.ret, JS_EVENT_SIZE, encode]
  rw [if_pos hpos]

/-- C2, at a device opened on descriptor 3 and a button record with the init
bit set in its type tag. -/
theorem event_decoding_exact_witness :
    js_event_type (js_dev_event_get world3 (some 0) (ReadResult.bytes
        (encode { time := 1000, value := 1, type := 0x81, number := 3 }))).2 (some 0)
      = Outcome.ret (VALUE.fixnum 0x81) :=
  (event_decoding_exact world3 (some 0) { time := 1000, value := 1, type := 0x81, number := 3 }
    world3_reachable (by decide) (by decide)).2.2.1

/-! ## Events and the slot they show -/

/-- C3 fails as stated: on a device opened on descriptor 3, the first event
shows time 1000 after the first read and time 2000 after the second read; and
when the device is closed and a second device is opened on descriptor 3 again,
a read on the second device changes what the first event shows. -/
theorem event_snapshot_counterexample :
    (js_dev_event_get world3 (some 0) (ReadResult.bytes (encode press1000))).1
        = Outcome.ret (VALUE.data Klass.Event (some 0))
      ∧ js_event_time (readRecord world3 (some 0) press1000) (some 0)
          = Outcome.ret (INT2FIX 1000)
      ∧ (js_dev_event_get (readRecord world3 (some 0) press1000) (some 0)
            (ReadResult.bytes (encode release2000))).1
          = Outcome.ret (VALUE.data Klass.Event (some 0))
      ∧ js_event_time (readRecord (readRecord world3 (some 0) press1000) (some 0) release2000)
            (some 0) = Outcome.ret (INT2FIX 2000)
      ∧ eventView (readRecord (readRecord world3 (some 0) press1000) (some 0) release2000)
            (some 0) ≠ viewOf press1000
      ∧ (js_dev_init (js_dev_close (readRecord world3 (some 0) press1000) (some 0)).2
            "/dev/input/js1" true 3).1 = Outcome.ret (VALUE.data Klass.Device (some 1))
      ∧ eventView (readRecord (js_dev_init (js_dev_close (readRecord world3 (some 0) press1000)
            (some 0)).2 "/dev/input/js1" true 3).2 (some 1) release2000) (some 0)
          = viewOf release2000 := by
  decide

/-- C3 as amended: an event is a view of the slot `jse[d]` of its descriptor.
After a full read on a device its accessors return the fields of that record,
and after a second full read on the same device the accessors of the first
event return the fields of the second record.  A `js_dev_close` on any handle,
and a read on a device whose descriptor is another one, leave what the
accessors return unchanged. -/
theorem event_is_view_of_slot (w : World) (self : Ptr) (e1 e2 : js_event)
    (hw : Reachable w) (hself : (Klass.Device, self) ∈ w.objects)
    (h1 : e1.WF) (h2 : e2.WF) :
    eventView (readRecord w self e1) self = viewOf e1
      ∧ eventView (readRecord (readRecord w self e1) self e2) self = viewOf e2
      ∧ (∀ q : Ptr, eventView (js_dev_close (readRecord w self e1) q).2 self
          = eventView (readRecord w self e1) self)
      ∧ (∀ (q : Ptr) (rd : ReadResult), (Klass.Device, q) ∈ (readRecord w self e1).objects →
          (readRecord w self e1).load q ≠ (readRecord w self e1).load self →
          eventView (js_dev_event_get (readRecord w self e1) q rd).2 self
            = eventView (readRecord w self e1) self) := by
  have hinv := reachable_inv w hw
  obtain ⟨d, s, hd, hlt, _, hs, _⟩ := lookup_of_inv w hinv _ hself
  have hw1 : Reachable (readRecord w self e1) :=
    Reachable.step w (Call.event self (ReadResult.bytes (encode e1))) hw hself
  have hinv1 := reachable_inv _ hw1
  have hd1 : (readRecord w self e1).load self = some (d : Int) := by
    rw [readRecord, load_event_get]
    exact hd
  obtain ⟨s1, hs1⟩ := slot_exists _ hinv1 d hlt
  refine ⟨eventView_after_full_read w self self e1 d s hd hs hd h1,
    eventView_after_full_read _ self self e2 d s1 hd1 hs1 hd1 h2, ?_, ?_⟩
  · intro q
    exact eventView_congr _ _ _ (lookup_close _ q self)
  · intro q rd hq hne
    obtain ⟨dq, sq, hdq, _, _, hsq, _⟩ := lookup_of_inv _ hinv1 _ hq
    have hl := lookup_event_get (readRecord w self e1) q self rd dq d sq hdq hsq hd1
    have hneq : ¬ d = dq := by
      intro h
      apply hne
      rw [hdq, hd1, h]
    rw [if_neg hneq] at hl
    exact eventView_congr _ _ _ hl

/-- C3 as amended, at a device opened on descriptor 3 and two button records. -/
theorem event_is_view_of_slot_witness :
    eventView (readRecord (readRecord world3 (some 0) press1000) (some 0) release2000) (some 0)
      = viewOf release2000 :=
  (event_is_view_of_slot world3 (some 0) press1000 release2000 world3_reachable
    (by decide) (by decide) (by decide)).2.1

/-! ## Short and failed reads -/

/-- C4 fails as stated: on a device opened on descriptor 3, a read that
delivers 3 bytes makes `js_dev_event_get` return an event and raise nothing;
after the record `press1000` the event shows a time made of the 3 new bytes
and the value, type and number of the old record. -/
theorem short_read_counterexample :
    (js_dev_event_get world3 (some 0) (ReadResult.bytes [1, 2, 3])).1
        = Outcome.ret (VALUE.data Klass.Event (some 0))
      ∧ (js_dev_event_get (readRecord world3 (some 0) press1000) (some 0)
            (ReadResult.bytes [1, 2, 3])).1 = Outcome.ret (VALUE.data Klass.Event (some 0))
      ∧ eventView (js_dev_event_get (readRecord world3 (some 0) press1000) (some 0)
            (ReadResult.bytes [1, 2, 3])).2 (some 0)
          = viewOf { time := 197121, value := 1, type := 1, number := 3 } := by
  decide

/-- C4 as amended: a read on a device that delivers `k` bytes with
`0 < k < 8` makes `js_dev_event_get` return an event, as every read of a
positive length does; the slot of the descriptor then holds the `k` bytes
delivered followed by the bytes it held from offset `k` on, and the accessors
of the event decode that slot. -/
theorem short_read_returns_event (w : World) (self : Ptr) (bs : List Byte)
    (hw : Reachable w) (hself : (Klass.Device, self) ∈ w.objects)
    (h0 : 0 < bs.length) (h8 : bs.length < JS_EVENT_SIZE) :
    (js_dev_event_get w self (ReadResult.bytes bs)).1
        = Outcome.ret (VALUE.data Klass.Event self)
      ∧ ∃ (d : Nat) (s : List Byte), w.load self = some (d : Int) ∧ w.jse.get? d = some s
          ∧ (js_dev_event_get w self (ReadResult.bytes bs)).2.jse.get? d
              = some (bs ++ s.drop bs.length)
          ∧ eventView (js_dev_event_get w self (ReadResult.bytes bs)).2 self
              = viewOf (decode (bs ++ s.drop bs.length)) := by
  obtain ⟨d, s, hd, _, hdl, hs, _⟩ := lookup_of_inv w (reachable_inv w hw) _ hself
  have htake : bs.take JS_EVENT_SIZE = bs := List.take_of_length_le (by omega)
  have hpos : (ReadResult.bytes bs).ret JS_EVENT_SIZE > 0 := by
    simp only [ReadResult.ret, htake]
    omega
  have hov : overwrite s ((ReadResult.bytes bs).delivered JS_EVENT_SIZE)
      = bs ++ s.drop bs.length := by
    simp only [ReadResult.delivered, htake, overwrite]
  have hl := lookup_event_get w self self (ReadResult.bytes bs) d d s hd hs hd
  rw [if_pos rfl, hov] at hl
  refine ⟨?_, d, s, hd, hs, ?_, eventView_of_lookup _ _ _ hl⟩
  · rw [event_get_eq w self _ d s hd hs, if_pos hpos]
  · rw [event_get_eq w self _ d s hd hs, if_pos hpos, hov]
    simp only [List.get?_eq_getElem?]
    simp [hdl]

/-- C4 as amended, at a device opened on descriptor 3 and a read of 3 bytes. -/
theorem short_read_returns_event_witness :
    (js_dev_event_get world3 (some 0) (ReadResult.bytes [1, 2, 3])).1
      = Outcome.ret (VALUE.data Klass.Event (some 0)) :=
  (short_read_returns_event world3 (some 0) [1, 2, 3] world3_reachable
    (by decide) (by decide) (by decide)).1

/-- C8 fails as stated: on a device opened on descriptor 3, a read that fails
(errno 19) makes `js_dev_event_get` return nil, raises nothing, and ends in
the same result and state as a read of zero bytes. -/
theorem read_error_counterexample :
    (js_dev_event_get world3 (some 0) (ReadResult.error 19)).1 = Outcome.ret VALUE.Qnil
      ∧ js_dev_event_get world3 (some 0) (ReadResult.error 19)
          = js_dev_event_get world3 (some 0) (ReadResult.bytes []) := by
  decide

/-- C8 as amended: a read on a device that returns a negative length makes
`js_dev_event_get` return nil without raising, exactly as a read of zero bytes
does; the table, the cells and the objects stay as they were, and the `read`
is in the trace. -/
theorem read_error_returns_nil (w : World) (self : Ptr) (errno : Nat)
    (hw : Reachable w) (hself : (Klass.Device, self) ∈ w.objects) :
    (js_dev_event_get w self (ReadResult.error errno)).1 = Outcome.ret VALUE.Qnil
      ∧ js_dev_event_get w self (ReadResult.error errno)
          = js_dev_event_get w self (ReadResult.bytes [])
      ∧ ∃ d : Nat, w.load self = some (d : Int)
          ∧ (js_dev_event_get w self (ReadResult.error errno)).2
              = w.withTrace (w.trace ++ [Syscall.sys_read d JS_EVENT_SIZE]) := by
  obtain ⟨d, s, hd, _, hdl, hs, _⟩ := lookup_of_inv w (reachable_inv w hw) _ hself
  have hneg : ¬ (ReadResult.error errno).ret JS_EVENT_SIZE > 0 := by
    simp [ReadResult.ret]
  have hzero : ¬ (ReadResult.bytes []).ret JS_EVENT_SIZE > 0 := by
    simp [ReadResult.ret]
  have hov : overwrite s ((ReadResult.error errno).delivered JS_EVENT_SIZE) = s := by
    simp [ReadResult.delivered, overwrite]
  refine ⟨?_, ?_, d, hd, ?_⟩
  · rw [event_get_eq w self _ d s hd hs, if_neg hneg]
  · rw [event_get_eq w self _ d s hd hs, event_get_eq w self _ d s hd hs, if_neg hneg,
      if_neg hzero]
    rfl
  · rw [event_get_eq w self _ d s hd hs, if_neg hneg, hov, set_get?_self _ _ _ hs]
    rfl

/-- C8 as amended, at a device opened on descriptor 3 and errno 19. -/
theorem read_error_returns_nil_witness :
    (js_dev_event_get world3 (some 0) (ReadResult.error 19)).1 = Outcome.ret VALUE.Qnil :=
  (read_error_returns_nil world3 (some 0) 19 world3_reachable (by decide)).1

/-! ## Opening a device -/

/-- C5 fails as stated: when `open` returns -1, `js_dev_init` returns nil, an
ordinary value, and raises nothing. -/
theorem open_failure_counterexample :
    (js_dev_init World.boot "/dev/input/js9" true (-1)).1 = Outcome.ret VALUE.Qnil := by
  decide

/-- C5 as amended: `js_dev_init` raises when `open` returns a descriptor of
`MAX_JS` (32) or more; when the descriptor is at least 0 and below `MAX_JS` it
returns a device object that wraps a fresh cell holding the descriptor; when
`open` returns a negative descriptor it returns nil and raises nothing, and so
it does, without calling `open`, when `malloc` fails. -/
theorem init_outcomes (w : World) (dev_path : String) (openRet : Int) :
    (openRet ≥ MAX_JS → (js_dev_init w dev_path true openRet).1 = Outcome.raise "Error")
      ∧ (0 ≤ openRet → openRet < MAX_JS →
          (js_dev_init w dev_path true openRet).1
              = Outcome.ret (VALUE.data Klass.Device (some w.heap.length))
            ∧ w.load (some w.heap.length) = none
            ∧ (js_dev_init w dev_path true openRet).2.load (some w.heap.length) = some openRet
            ∧ (Klass.Device, some w.heap.length)
                ∈ (js_dev_init w dev_path true openRet).2.objects)
      ∧ (openRet < 0 → (js_dev_init w dev_path true openRet).1 = Outcome.ret VALUE.Qnil)
      ∧ js_dev_init w dev_path false openRet = (Outcome.ret VALUE.Qnil, w) := by
  refine ⟨?_, ?_, ?_, ?_⟩
  · intro h
    have h0 : openRet ≥ 0 := by
      simp only [MAX_JS] at h
      omega
    simp only [js_dev_init, if_true, if_pos h0, if_pos h]
  · intro h0 h1
    have hr : (js_dev_init w dev_path true openRet).1
        = Outcome.ret (VALUE.data Klass.Device (some w.heap.length)) := by
      have hn : ¬ openRet ≥ (MAX_JS : Int) := by omega
      have hp : openRet ≥ 0 := h0
      simp only [js_dev_init, if_true, if_pos hp, if_neg hn, Data_Wrap_Struct]
    obtain ⟨_, _, _, _, hl, hm⟩ := init_handle w dev_path true openRet _ _ hr
    refine ⟨hr, ?_, hl, hm⟩
    simp [World.load]
  · intro h
    have hn : ¬ openRet ≥ 0 := by omega
    simp only [js_dev_init, if_true, if_neg hn]
  · simp [js_dev_init]

/-- C5 as amended, at descriptors 40, 3 and -1 on the boot state. -/
theorem init_outcomes_witness :
    (js_dev_init World.boot "/dev/input/js0" true 40).1 = Outcome.raise "Error"
      ∧ (js_dev_init World.boot "/dev/input/js0" true 3).1
          = Outcome.ret (VALUE.data Klass.Device (some 0))
      ∧ (js_dev_init World.boot "/dev/input/js0" true (-1)).1 = Outcome.ret VALUE.Qnil :=
  ⟨(init_outcomes World.boot "/dev/input/js0" 40).1 (by decide),
    ((init_outcomes World.boot "/dev/input/js0" 3).2.1 (by decide) (by decide)).1,
    (init_outcomes World.boot "/dev/input/js0" (-1)).2.2.1 (by decide)⟩

/-! ## Closing a device -/

/-- C6 fails as stated: on a device opened on descriptor 3 and then closed,
`js_dev_axes` issues its `ioctl` on descriptor 3 and returns the count the
kernel stores, and `js_dev_event_get` issues its `read` on descriptor 3 and
returns nil when the `read` fails (errno 9); neither raises. -/
theorem closed_handle_counterexample :
    js_dev_axes (js_dev_close world3 (some 0)).2 (some 0) 0 2
        = (Outcome.ret (INT2FIX 2),
            world3.withTrace [Syscall.sys_open "/dev/input/js0", Syscall.sys_close 3,
              Syscall.sys_ioctl 3 Request.JSIOCGAXES])
      ∧ js_dev_event_get (js_dev_close world3 (some 0)).2 (some 0) (ReadResult.error 9)
        = (Outcome.ret VALUE.Qnil,
            world3.withTrace [Syscall.sys_open "/dev/input/js0", Syscall.sys_close 3,
              Syscall.sys_read 3 JS_EVENT_SIZE]) := by
  decide

/-- C6 as amended: `js_dev_close` records nothing in the handle.  After it,
every query and read on the handle ends as it does on the handle before the
close, for the same answer of the kernel, and issues its `ioctl` or `read` on
the stored descriptor. -/
theorem closed_handle_still_queried (w : World) (self : Ptr) (hw : Reachable w)
    (hself : (Klass.Device, self) ∈ w.objects) :
    ∃ d : Nat, w.load self = some (d : Int)
      ∧ js_dev_close w self
          = (Outcome.ret VALUE.Qnil, w.withTrace (w.trace ++ [Syscall.sys_close d]))
      ∧ (∀ (r : Int) (x : Byte), js_dev_axes (js_dev_close w self).2 self r x
          = ((js_dev_axes w self r x).1, w.withTrace (w.trace ++
              [Syscall.sys_close d, Syscall.sys_ioctl d Request.JSIOCGAXES])))
      ∧ (∀ (r : Int) (x : Byte), js_dev_buttons (js_dev_close w self).2 self r x
          = ((js_dev_buttons w self r x).1, w.withTrace (w.trace ++
              [Syscall.sys_close d, Syscall.sys_ioctl d Request.JSIOCGBUTTONS])))
      ∧ (∀ (r : Int) (x : Option String), js_dev_name (js_dev_close w self).2 self r x
          = ((js_dev_name w self r x).1, w.withTrace (w.trace ++
              [Syscall.sys_close d, Syscall.sys_ioctl d Request.JSIOCGNAME])))
      ∧ (∀ (r : Int) (x : Int), js_dev_axes_maps (js_dev_close w self).2 self r x
          = ((js_dev_axes_maps w self r x).1, w.withTrace (w.trace ++
              [Syscall.sys_close d, Syscall.sys_ioctl d Request.JSIOCGAXMAP])))
      ∧ (∀ (r : Int) (x : Option Int), js_dev_version (js_dev_close w self).2 self r x
          = ((js_dev_version w self r x).1, w.withTrace (w.trace ++
              [Syscall.sys_close d, Syscall.sys_ioctl d Request.JSIOCGVERSION])))
      ∧ (∀ rd : ReadResult, js_dev_event_get (js_dev_close w self).2 self rd
          = ((js_dev_event_get w self rd).1, (js_dev_event_get w self rd).2.withTrace
              (w.trace ++ [Syscall.sys_close d, Syscall.sys_read d JS_EVENT_SIZE]))) := by
  obtain ⟨d, s, hd, _, _, hs, _⟩ := lookup_of_inv w (reachable_inv w hw) _ hself
  have hc : js_dev_close w self
      = (Outcome.ret VALUE.Qnil, w.withTrace (w.trace ++ [Syscall.sys_close d])) := by
    simp only [js_dev_close, hd]
    rfl
  have hd2 : (w.withTrace (w.trace ++ [Syscall.sys_close d])).load self = some (d : Int) := hd
  have hs2 : (w.withTrace (w.trace ++ [Syscall.sys_close d])).jse.get? d = some s := hs
  refine ⟨d, hd, hc, ?_, ?_, ?_, ?_, ?_, ?_⟩
  · intro r x
    rw [hc]
    simp only [js_dev_axes, hd, hd2]
    split <;> simp [World.issue, World.withTrace]
  · intro r x
    rw [hc]
    simp only [js_dev_buttons, hd, hd2]
    split <;> simp [World.issue, World.withTrace]
  · intro r x
    rw [hc]
    simp only [js_dev_name, hd, hd2]
    split
    · simp [World.issue, World.withTrace]
    · split
      · simp [World.issue, World.withTrace]
      · split <;> simp [World.issue, World.withTrace]
  · intro r x
    rw [hc]
    simp only [js_dev_axes_maps, hd, hd2]
    split <;> simp [World.issue, World.withTrace]
  · intro r x
    rw [hc]
    simp only [js_dev_version, hd, hd2]
    split
    · simp [World.issue, World.withTrace]
    · split <;> simp [World.issue, World.withTrace]
  · intro rd
    rw [hc]
    simp only [event_get_eq _ self rd d s hd2 hs2, event_get_eq w self rd d s hd hs]
    split <;> simp [World.withTrace]

/-- C6 as amended, at a device opened on descriptor 3. -/
theorem closed_handle_still_queried_witness :
    js_dev_axes (js_dev_close world3 (some 0)).2 (some 0) 0 2
      = ((js_dev_axes world3 (some 0) 0 2).1, world3.withTrace (world3.trace ++
          [Syscall.sys_close 3, Syscall.sys_ioctl 3 Request.JSIOCGAXES])) := by
  obtain ⟨d, h1, _, h2, _⟩ := closed_handle_still_queried world3 (some 0) world3_reachable
    (by decide)
  have h3 : world3.load (some 0) = some 3 := by decide
  rw [h3] at h1
  have h4 : (d : Int) = 3 := (Option.some.inj h1).symm
  have h5 := h2 0 2
  rw [h4] at h5
  exact h5

/-- C7 fails as stated: on a device opened on descriptor 3, two calls of
`js_dev_close` issue two `close` calls on descriptor 3. -/
theorem close_twice_counterexample :
    (js_dev_close (js_dev_close world3 (some 0)).2 (some 0)).2.trace
        = [Syscall.sys_open "/dev/input/js0", Syscall.sys_close 3, Syscall.sys_close 3]
      ∧ ((js_dev_close (js_dev_close world3 (some 0)).2 (some 0)).2.trace).count
          (Syscall.sys_close 3) = 2 := by
  decide

/-- C7 as amended: on a handle whose cell holds descriptor `fd`, two calls of
`js_dev_close` both return nil and raise nothing, each issues one `close` on
`fd`, two in all, and the table, the cells and the objects are after the second
call what they were before the first. -/
theorem close_twice (w : World) (self : Ptr) (fd : Int) (hfd : w.load self = some fd) :
    (js_dev_close w self).1 = Outcome.ret VALUE.Qnil
      ∧ (js_dev_close (js_dev_close w self).2 self).1 = Outcome.ret VALUE.Qnil
      ∧ (js_dev_close w self).2 = w.withTrace (w.trace ++ [Syscall.sys_close fd])
      ∧ (js_dev_close (js_dev_close w self).2 self).2
          = w.withTrace (w.trace ++ [Syscall.sys_close fd, Syscall.sys_close fd])
      ∧ ((js_dev_close (js_dev_close w self).2 self).2.trace).count (Syscall.sys_close fd)
          = w.trace.count (Syscall.sys_close fd) + 2 := by
  have hc : js_dev_close w self
      = (Outcome.ret VALUE.Qnil, w.withTrace (w.trace ++ [Syscall.sys_close fd])) := by
    simp only [js_dev_close, hfd]
    rfl
  have hfd2 : (w.withTrace (w.trace ++ [Syscall.sys_close fd])).load self = some fd := hfd
  have hc2 : js_dev_close (w.withTrace (w.trace ++ [Syscall.sys_close fd])) self
      = (Outcome.ret VALUE.Qnil,
          w.withTrace (w.trace ++ [Syscall.sys_close fd, Syscall.sys_close fd])) := by
    simp only [js_dev_close, hfd2]
    simp [World.issue, World.withTrace]
  rw [hc, hc2]
  refine ⟨rfl, rfl, rfl, rfl, ?_⟩
  simp [World.withTrace]

/-- C7 as amended, at a device opened on descriptor 3. -/
theorem close_twice_witness :
    (js_dev_close (js_dev_close world3 (some 0)).2 (some 0)).2
      = world3.withTrace (world3.trace ++ [Syscall.sys_close 3, Syscall.sys_close 3]) :=
  (close_twice world3 (some 0) 3 (by decide)).2.2.2.1

end Rjoystick
